import Mathlib

/-!
Shallow embedding of the hyperstate repository's state-machine engine.

The embedding follows `src/index.ts` (class `Hyperstate`) and
`src/unnamed/part_004` (class `Coremachine`, also compiled as class
`Hypercube` in `src/dist/index.js`).  JavaScript objects whose keys are
looked up dynamically (`machine.states`, `stateConfig.on`) become
association lists keyed by `String`; the Hypercore log (records are
JSON-serialised on `append` and decoded afresh on `get`, hence value
semantics) becomes a `List` of records; `core.get(i)` becomes `logGet`,
which fails (the promise rejects) exactly when `i` is out of `[0, length)`.

A transition's `action` callback mutates the context object in place and
may throw.  Its net observable effect is the mutated context value plus
whether it threw, so it is embedded as `Ctx → Payload → Ctx × Bool`
(`true` = the callback threw; in-place mutations performed before the
throw persist, exactly as in JavaScript).

The only aliasing that matters to the spec's claims is between the
engine's `_context` reference and the machine definition's `context`
property: `Hyperstate`'s constructor assigns `this._context =
machine.context` (shared reference) while `Coremachine`'s constructor
deep-clones.  The engine state therefore carries the definition object's
current `context` value (`defContext`) and a flag `ctxAliased` recording
whether `_context` and `machine.context` are the same object; an
in-place mutation of `_context` updates `defContext` exactly when the
two are aliased, and every reassignment of `_context` to a freshly
decoded log record (`_open`, `forward`, `backward`) clears the flag.
-/

/-- One persisted log record, `{ state, context }` (`src/index.ts`
`action`: the object passed to `this._core.append`). -/
structure LogRecord (Ctx : Type) where
  state : String
  context : Ctx
  deriving DecidableEq, Repr

/-- `TransitionConfig` from `src/index.ts`: `{ target, action }`.  The
`action` callback's in-place mutation and possible throw are embedded as
a returned pair (new context value, whether it threw). -/
structure TransitionConfig (Ctx Payload : Type) where
  target : String
  action : Ctx → Payload → Ctx × Bool

/-- `StateConfig` from `src/index.ts`: `{ on: Record<string, TransitionConfig> }`.
The property is called `on` in the source; `on` is a reserved token in
Lean, so the field is named `onMap` here. -/
structure StateConfig (Ctx Payload : Type) where
  onMap : List (String × TransitionConfig Ctx Payload)

/-- `MachineConfig` from `src/index.ts`: `{ initial, context, states }`. -/
structure MachineConfig (Ctx Payload : Type) where
  initial : String
  context : Ctx
  states : List (String × StateConfig Ctx Payload)

/-- JavaScript key lookup on a string-keyed record, `obj[key]`
(`undefined` becomes `none`). -/
def recLookup (l : List (String × α)) (key : String) : Option α :=
  (l.find? (fun p => p.1 == key)).map (fun p => p.2)

/-- `machine.states[s]`. -/
def MachineConfig.lookupState (m : MachineConfig Ctx Payload) (s : String) :
    Option (StateConfig Ctx Payload) :=
  recLookup m.states s

/-- `core.get(i)` on a JSON-encoded Hypercore of the given records: yields
the decoded record when `0 ≤ i < length`, otherwise the promise rejects
(`none`). -/
def logGet (l : List α) (i : Int) : Option α :=
  if 0 ≤ i then l[i.toNat]? else none

/-- The runtime state of one engine instance: the private fields
`_machine`, `_state`, `_context`, `_currentIndex` and the bound core's
record list, plus the definition-aliasing bookkeeping described in the
file comment. -/
structure Engine (Ctx Payload : Type) where
  machine : MachineConfig Ctx Payload
  state : String
  context : Ctx
  currentIndex : Option Int
  log : List (LogRecord Ctx)
  defContext : Ctx
  ctxAliased : Bool

/-- Errors surfaced by `action()`: the `Invalid action: <name> for state
<state>` rejection, or a throw propagated from the transition's `action`
callback. -/
inductive ActionError where
  | invalidAction (name state : String)
  | actionThrew
  deriving DecidableEq, Repr

namespace Hyperstate

/-- `src/index.ts` lines 156-157: `this._machine.states[this._state]`
then `currentState?.on[event]`. -/
def resolve (m : MachineConfig Ctx Payload) (s : String) (event : String) :
    Option (TransitionConfig Ctx Payload) :=
  (m.lookupState s).bind (fun sc => recLookup sc.onMap event)

/-- `Hyperstate.action` (`src/index.ts` lines 149-178).  On a resolved
transition: run the callback (in-place mutation, possible throw), and if
it did not throw, append `{state: transition.target, context}` and set
`_state = transition.target`.  If no transition resolves, throw
`Invalid action` with nothing mutated.  The returned engine is the
fields' values after the call settles, paired with the promise outcome. -/
def action (e : Engine Ctx Payload) (event : String) (value : Payload) :
    Engine Ctx Payload × Except ActionError (String × Ctx) :=
  match resolve e.machine e.state event with
  | none => (e, Except.error (ActionError.invalidAction event e.state))
  | some t =>
    let res := t.action e.context value
    let e1 : Engine Ctx Payload :=
      { e with
        context := res.1
        defContext := if e.ctxAliased then res.1 else e.defContext }
    if res.2 then
      (e1, Except.error ActionError.actionThrew)
    else
      let e2 : Engine Ctx Payload :=
        { e1 with
          log := e1.log ++ [⟨t.target, res.1⟩]
          state := t.target }
      (e2, Except.ok (t.target, res.1))

/-- `Hyperstate.forward` (`src/index.ts` lines 185-197).  `newIndex` is
`length - 2` when `_currentIndex` is `null`, else `_currentIndex + 1`;
the guard is literally `this._core.length > newIndex && newIndex <
this._core.length`.  Inside the guard, `core.get(newIndex)` rejects for
a negative index (flag `true`), leaving every field unassigned. -/
def forward (e : Engine Ctx Payload) : Engine Ctx Payload × Bool :=
  let newIndex : Int :=
    match e.currentIndex with
    | none => (e.log.length : Int) - 2
    | some i => i + 1
  if (e.log.length : Int) > newIndex ∧ newIndex < (e.log.length : Int) then
    match logGet e.log newIndex with
    | some r =>
      ({ e with
          state := r.state
          context := r.context
          ctxAliased := false
          currentIndex := some newIndex }, false)
    | none => (e, true)
  else
    (e, false)

/-- `Hyperstate.backward` (`src/index.ts` lines 204-216): same shape as
`forward` with `newIndex` stepping down and the guard
`this._core.length > newIndex && newIndex >= 0`. -/
def backward (e : Engine Ctx Payload) : Engine Ctx Payload × Bool :=
  let newIndex : Int :=
    match e.currentIndex with
    | none => (e.log.length : Int) - 2
    | some i => i - 1
  if (e.log.length : Int) > newIndex ∧ 0 ≤ newIndex then
    match logGet e.log newIndex with
    | some r =>
      ({ e with
          state := r.state
          context := r.context
          ctxAliased := false
          currentIndex := some newIndex }, false)
    | none => (e, true)
  else
    (e, false)

/-- Constructor (`src/index.ts` lines 116-123, note `this._context =
machine.context` with no clone) followed by `_open` (lines 125-143): if
the core is non-empty, load the record at `length - 1`, assign
`_state`/`_context` from it, then, if the restored state's node has an
`on.start` transition with a truthy `target`, replace `_state` by that
target (no record is appended and the callback is not run in this
revision). -/
def openOn (m : MachineConfig Ctx Payload) (log : List (LogRecord Ctx)) :
    Engine Ctx Payload :=
  let e0 : Engine Ctx Payload :=
    { machine := m
      state := m.initial
      context := m.context
      currentIndex := none
      log := log
      defContext := m.context
      ctxAliased := true }
  match logGet log ((log.length : Int) - 1) with
  | none => e0
  | some r =>
    let s1 := r.state
    let s2 :=
      match resolve m s1 "start" with
      | some t => if t.target ≠ "" then t.target else s1
      | none => s1
    { e0 with state := s2, context := r.context, ctxAliased := false }

/-- Apply a list of `(event, value)` calls to `action()`, stopping at the
first rejection; the flag is `true` iff every call succeeded. -/
def runActs (e : Engine Ctx Payload) :
    List (String × Payload) → Engine Ctx Payload × Bool
  | [] => (e, true)
  | (n, p) :: rest =>
    match action e n p with
    | (e', Except.ok _) => runActs e' rest
    | (e', Except.error _) => (e', false)

/-- The history/action operations a caller can issue on a live engine
(`action`, `forward`, `backward`); the engine fields after the call are
kept whether or not the call's promise rejected. -/
inductive EngineOp (Payload : Type) where
  | act (event : String) (value : Payload)
  | fwd
  | bwd

/-- One caller-issued operation: the engine fields after the call
settles (fulfilled or rejected). -/
def step (e : Engine Ctx Payload) : EngineOp Payload → Engine Ctx Payload
  | EngineOp.act n p => (action e n p).1
  | EngineOp.fwd => (forward e).1
  | EngineOp.bwd => (backward e).1

/-- The engine fields after a whole sequence of awaited calls. -/
def run (e : Engine Ctx Payload) (ops : List (EngineOp Payload)) :
    Engine Ctx Payload :=
  ops.foldl step e

end Hyperstate

namespace Coremachine

/-- JavaScript property access of an action-name key directly on a
state-config object, as in `this._machine.states.all?.[action]`
(`src/unnamed/part_004` line 191).  A state node built from the
library's `StateConfig` type has exactly one own property, `on`, which
holds the transition record — so reading an action-name key yields
`undefined`.  (Reading the key `"on"` itself would yield the transition
record, which is not a `TransitionConfig`; the subsequent
`transition.action(...)` call would then throw a TypeError, so no
transition is dispatched on that path either.) -/
def stateConfigOwnProp (_sc : StateConfig Ctx Payload) (_key : String) :
    Option (TransitionConfig Ctx Payload) :=
  none

/-- `Coremachine.action`'s transition lookup (`src/unnamed/part_004`
lines 188-191, identically `Hypercube.action` in `src/dist/index.js`):
`currentState?.on[action] || this._machine.states.all?.[action]`. -/
def resolve (m : MachineConfig Ctx Payload) (s : String) (actionName : String) :
    Option (TransitionConfig Ctx Payload) :=
  match (m.lookupState s).bind (fun sc => recLookup sc.onMap actionName) with
  | some t => some t
  | none => (m.lookupState "all").bind (fun sc => stateConfigOwnProp sc actionName)

/-- Modelled from the spec: the Transition Resolver with the wildcard
fallback as §4.1 describes it — look up
`states[currentState].transitions[actionName]` and, if absent, fall back
to the transition table of the reserved wildcard state entry (the state
node keyed `all`, i.e. `states.all.on[actionName]`). -/
def resolveSpecWildcard (m : MachineConfig Ctx Payload) (s : String)
    (actionName : String) : Option (TransitionConfig Ctx Payload) :=
  match (m.lookupState s).bind (fun sc => recLookup sc.onMap actionName) with
  | some t => some t
  | none => (m.lookupState "all").bind (fun sc => recLookup sc.onMap actionName)

/-- `Coremachine.action` (`src/unnamed/part_004` lines 181-213).  Unlike
`Hyperstate.action` it falls back to `states.all?.[action]` in the
lookup and appends/assigns `transition.target || this._state` (falsy
target means self-loop).  The readable-side `push` has no effect on the
engine fields and is not modelled. -/
def action (e : Engine Ctx Payload) (actionName : String) (value : Payload) :
    Engine Ctx Payload × Except ActionError (String × Ctx) :=
  match resolve e.machine e.state actionName with
  | none => (e, Except.error (ActionError.invalidAction actionName e.state))
  | some t =>
    let res := t.action e.context value
    let e1 : Engine Ctx Payload :=
      { e with
        context := res.1
        defContext := if e.ctxAliased then res.1 else e.defContext }
    if res.2 then
      (e1, Except.error ActionError.actionThrew)
    else
      let target := if t.target = "" then e.state else t.target
      let e2 : Engine Ctx Payload :=
        { e1 with
          log := e1.log ++ [⟨target, res.1⟩]
          state := target }
      (e2, Except.ok (target, res.1))

/-- Constructor (`src/unnamed/part_004` lines 130-137; note
`this._context = structuredClone(machine.context)`: the engine's context
is a fresh deep copy, never the definition's object) followed by `_open`
(lines 139-167) on an empty core, whose `length > 0` branch is skipped. -/
def openedOnEmpty (m : MachineConfig Ctx Payload) : Engine Ctx Payload :=
  { machine := m
    state := m.initial
    context := m.context
    currentIndex := none
    log := []
    defContext := m.context
    ctxAliased := false }

/-- Apply a list of `(actionName, value)` calls to `Coremachine.action`,
stopping at the first rejection; the flag is `true` iff every call
succeeded. -/
def runActs (e : Engine Ctx Payload) :
    List (String × Payload) → Engine Ctx Payload × Bool
  | [] => (e, true)
  | (n, p) :: rest =>
    match action e n p with
    | (e', Except.ok _) => runActs e' rest
    | (e', Except.error _) => (e', false)

end Coremachine

/-- The history-cursor bound the spec states as a data-model invariant:
when `_currentIndex` is non-null it lies in `[0, log.length)`. -/
def cursorInBounds (e : Engine Ctx Payload) : Prop :=
  match e.currentIndex with
  | none => True
  | some i => 0 ≤ i ∧ i < (e.log.length : Int)

/-- Whether `_open`'s reserved `start` pseudo-transition would move the
restored state somewhere else: the state node for `s` defines an
`on.start` transition with a truthy (non-empty) `target`. -/
def startEscapes (m : MachineConfig Ctx Payload) (s : String) : Bool :=
  match Hyperstate.resolve m s "start" with
  | some t => t.target != ""
  | none => false

/-- The engine's displayed `{state, context}` coincides with the record
persisted at the log's tip (index `length - 1`) — as holds after any
sequence of successfully applied actions. -/
def displaysTip (e : Engine Ctx Payload) : Prop :=
  logGet e.log ((e.log.length : Int) - 1) =
    some { state := e.state, context := e.context }

/-- The context of the README/example counter machine
(`src/unnamed/part_002` lines 57-95): `{ running, counter }`.  The
`counter` field is `Option Int`: `none` stands for the non-numeric
values (`undefined` after a payload-less `START`, `NaN` after
incrementing it), which are absorbing for the arithmetic the machine
performs. -/
structure CounterCtx where
  running : Bool
  counter : Option Int
  deriving DecidableEq, Repr

/-- The example machine of `src/unnamed/part_002`: `idle` with
`START(n) → running` (sets `running := true`, `counter := n`), `running`
with `INCREMENT → running` (`ctx.counter++`) and `STOP(final?) → idle`
(`running := false`, `counter := final` when a payload was given). -/
def counterMachine : MachineConfig CounterCtx (Option Int) :=
  { initial := "idle"
    context := { running := false, counter := some 0 }
    states :=
      [ ("idle",
          { onMap :=
              [ ("START",
                  { target := "running"
                    action := fun _ctx p => ({ running := true, counter := p }, false) }) ] })
      , ("running",
          { onMap :=
              [ ("INCREMENT",
                  { target := "running"
                    action := fun ctx _ =>
                      ({ ctx with counter := ctx.counter.map (· + 1) }, false) })
              , ("STOP",
                  { target := "idle"
                    action := fun ctx p =>
                      ({ running := false
                         counter := match p with
                           | some n => some n
                           | none => ctx.counter }, false) }) ] }) ] }

/-- A machine whose state `a` carries a reserved `start` transition
targeting `b`: `_open` will restore a log tip recorded in state `a` and
then immediately move to `b` without appending. -/
def startMachine : MachineConfig Unit Unit :=
  { initial := "a"
    context := ()
    states :=
      [ ("a",
          { onMap :=
              [ ("go", { target := "a", action := fun _ _ => ((), false) })
              , ("start", { target := "b", action := fun _ _ => ((), false) }) ] })
      , ("b", { onMap := [] }) ] }

/-- A machine whose single transition's `action` callback mutates the
context in place (increments it) and then throws. -/
def boomMachine : MachineConfig Int Unit :=
  { initial := "s"
    context := 0
    states :=
      [ ("s",
          { onMap :=
              [ ("boom", { target := "s", action := fun c _ => (c + 1, true) }) ] }) ] }

/-- A machine with the reserved wildcard state entry: state `idle`
defines no transitions, while the `all` state node defines a `PING`
transition, so per the spec `PING` should apply from `idle`. -/
def wildMachine : MachineConfig Unit Unit :=
  { initial := "idle"
    context := ()
    states :=
      [ ("idle", { onMap := [] })
      , ("all",
          { onMap :=
              [ ("PING", { target := "idle", action := fun _ _ => ((), false) }) ] }) ] }

/-- Relation between a machine and a live engine built from it over
`Hyperstate.action` calls only: the engine is bound to that machine, and
either the log is still empty, with `{state, context}` at their
constructor values, or the log's last record is exactly the engine's
displayed `{state, context}`. -/
def tipConsistent (m : MachineConfig Ctx Payload) (e : Engine Ctx Payload) : Prop :=
  e.machine = m ∧
  ((e.log = [] ∧ e.state = m.initial ∧ e.context = m.context) ∨
    logGet e.log ((e.log.length : Int) - 1) =
      some { state := e.state, context := e.context })

/-- The README scenario: `START(1)`, `INCREMENT`, `INCREMENT`, `STOP()`
applied to a fresh engine on an empty log. -/
def scenarioRun : Engine CounterCtx (Option Int) × Bool :=
  Hyperstate.runActs (Hyperstate.openOn counterMachine [])
    [("START", some 1), ("INCREMENT", none), ("INCREMENT", none), ("STOP", none)]

/-- One successful `go` self-loop applied to a fresh engine on an empty
log of the `startMachine`. -/
def startRun : Engine Unit Unit × Bool :=
  Hyperstate.runActs (Hyperstate.openOn startMachine []) [("go", ())]

/-- A fresh engine on an empty log of the machine whose `boom` callback
mutates the context and then throws. -/
def eBoom : Engine Int Unit :=
  Hyperstate.openOn boomMachine []

/-- An engine displaying the live tip (cursor `null`) of a two-record
log whose records carry distinct states `s0` and `s1`. -/
def tipEngine2 : Engine Unit Unit :=
  { machine := startMachine
    state := "s1"
    context := ()
    currentIndex := none
    log := [{ state := "s0", context := () }, { state := "s1", context := () }]
    defContext := ()
    ctxAliased := false }

/-- The same engine with its history cursor at the tip index `1`. -/
def eAtTip : Engine Unit Unit :=
  { tipEngine2 with currentIndex := some 1 }

/-- The same engine with its history cursor at index `0`. -/
def eAtZero : Engine Unit Unit :=
  { tipEngine2 with currentIndex := some 0 }

/-- An engine of the counter machine positioned at the historical record
of index `0` (cursor non-null) over a two-record log. -/
def eCursor0 : Engine CounterCtx (Option Int) :=
  { machine := counterMachine
    state := "running"
    context := { running := true, counter := some 1 }
    currentIndex := some 0
    log :=
      [ { state := "running", context := { running := true, counter := some 1 } }
      , { state := "running", context := { running := true, counter := some 2 } } ]
    defContext := { running := false, counter := some 0 }
    ctxAliased := false }

/-! ## Helper lemmas -/

theorem logGet_bounds (l : List α) (i : Int) (a : α) (h : logGet l i = some a) :
    0 ≤ i ∧ i < (l.length : Int) := by
  unfold logGet at h
  split at h
  · rename_i h0
    have hlt : i.toNat < l.length := by
      by_contra hge
      rw [List.getElem?_eq_none (by omega)] at h
      exact Option.noConfusion h
    exact ⟨h0, by omega⟩
  · exact Option.noConfusion h

theorem logGet_isSome (l : List α) (i : Int) (h0 : 0 ≤ i)
    (h1 : i < (l.length : Int)) : ∃ a, logGet l i = some a := by
  have hlt : i.toNat < l.length := by omega
  exact ⟨l[i.toNat], by simp [logGet, h0, List.getElem?_eq_getElem hlt]⟩

theorem getElem?_append_one (l : List α) (a : α) : (l ++ [a])[l.length]? = some a := by
  induction l with
  | nil => rfl
  | cons x xs ih => simp [ih]

theorem logGet_append_tip (l : List α) (a : α) :
    logGet (l ++ [a]) (((l ++ [a]).length : Int) - 1) = some a := by
  have h0 : (0 : Int) ≤ ((l ++ [a]).length : Int) - 1 := by simp
  have htn : ((((l ++ [a]).length : Int)) - 1).toNat = l.length := by simp
  rw [logGet, if_pos h0, htn, getElem?_append_one]

/-! ## C1: invalid action is rejected atomically -/

/-- C1: for every engine state `s` and action name `n` with no
transition defined on `s`, `action(n, payload)` rejects with the
`InvalidAction` error and the engine is returned exactly as it was: the
state is still `s`, the context is unchanged, and the log (hence its
length) is unchanged — no append was issued. -/
theorem invalidAction_is_atomic (e : Engine Ctx Payload) (n : String) (p : Payload)
    (h : Hyperstate.resolve e.machine e.state n = none) :
    Hyperstate.action e n p =
      (e, Except.error (ActionError.invalidAction n e.state)) := by
  unfold Hyperstate.action
  rw [h]

/-- Witness for C1: on a fresh engine of the counter machine, `STOP` is
not defined on `idle`, and `action("STOP", 42)` rejects with
`InvalidAction` leaving the engine untouched. -/
theorem invalidAction_is_atomic_witness :
    Hyperstate.resolve (Hyperstate.openOn counterMachine []).machine
        (Hyperstate.openOn counterMachine []).state "STOP" = none ∧
    Hyperstate.action (Hyperstate.openOn counterMachine []) "STOP" (some 42) =
      (Hyperstate.openOn counterMachine [],
        Except.error (ActionError.invalidAction "STOP" "idle")) :=
  ⟨rfl, invalidAction_is_atomic (Hyperstate.openOn counterMachine []) "STOP" (some 42) rfl⟩

/-! ## C9: the README counter scenario -/

/-- C9: starting from an empty log, `START(1)`, `INCREMENT`,
`INCREMENT`, `STOP()` all succeed and yield log length 4 with final
state `idle` and context counter `3`; the subsequent `STOP(42)` is
rejected as an invalid action and leaves the log length at 4. -/
theorem counter_scenario :
    scenarioRun.2 = true ∧
    scenarioRun.1.state = "idle" ∧
    scenarioRun.1.context = { running := false, counter := some 3 } ∧
    scenarioRun.1.log.length = 4 ∧
    (Hyperstate.action scenarioRun.1 "STOP" (some 42)).2 =
      Except.error (ActionError.invalidAction "STOP" "idle") ∧
    (Hyperstate.action scenarioRun.1 "STOP" (some 42)).1.log.length = 4 :=
  ⟨rfl, rfl, rfl, rfl, rfl, rfl⟩

/-! ## C4: the wildcard fallback never fires -/

/-- C4 (divergence): on a definition whose reserved wildcard state entry
`all` defines a `PING` transition, the spec's Transition Resolver finds
that transition from state `idle`, but the implementation's fallback
reads `states.all?.[action]` — the action name as a direct property of
the state-config object instead of `states.all.on[action]` — so it finds
nothing and `action("PING")` rejects with `InvalidAction`, leaving the
engine unchanged. -/
theorem wildcard_fallback_is_dead :
    (Coremachine.resolveSpecWildcard wildMachine "idle" "PING").map
        (fun t => t.target) = some "idle" ∧
    Coremachine.resolve wildMachine "idle" "PING" = none ∧
    Coremachine.action (Coremachine.openedOnEmpty wildMachine) "PING" () =
      (Coremachine.openedOnEmpty wildMachine,
        Except.error (ActionError.invalidAction "PING" "idle")) :=
  ⟨rfl, rfl, rfl⟩

/-! ## C7: mutation of the machine definition's context -/

/-- C7 (counterexample): the claim fails on `Hyperstate`.  Its
constructor assigns `this._context = machine.context` without cloning,
so the successful `START(1)` mutates the definition's `context` object
in place: afterwards the definition's context field differs from its
construction-time value (the counter moved from `0` to `1`). -/
theorem hyperstate_mutates_definition :
    (Hyperstate.action (Hyperstate.openOn counterMachine []) "START" (some 1)).2 =
      Except.ok ("running", { running := true, counter := some 1 }) ∧
    (Hyperstate.action (Hyperstate.openOn counterMachine []) "START" (some 1)).1.defContext ≠
      counterMachine.context :=
  ⟨rfl, by decide⟩

theorem coremachine_action_keeps_defContext (e : Engine Ctx Payload)
    (n : String) (p : Payload) (h : e.ctxAliased = false) :
    (Coremachine.action e n p).1.ctxAliased = false ∧
    (Coremachine.action e n p).1.defContext = e.defContext := by
  unfold Coremachine.action
  cases hr : Coremachine.resolve e.machine e.state n with
  | none => exact ⟨h, rfl⟩
  | some t =>
    simp only [h]
    split
    · exact ⟨rfl, by simp⟩
    · exact ⟨rfl, by simp⟩

/-- C7 (amended): `Coremachine` deep-clones `machine.context` at
construction, so for every definition and every sequence of `action()`
calls on an engine constructed from it over an empty log, the
definition's context field afterwards still equals its construction-time
value; `Hyperstate` instead aliases the definition's context object, so
in-place transition mutations also change the definition (see the
counterexample). -/
theorem coremachine_never_mutates_definition (m : MachineConfig Ctx Payload)
    (ops : List (String × Payload)) :
    (Coremachine.runActs (Coremachine.openedOnEmpty m) ops).1.defContext =
      m.context := by
  suffices h : ∀ (ops : List (String × Payload)) (e : Engine Ctx Payload),
      e.ctxAliased = false →
      (Coremachine.runActs e ops).1.ctxAliased = false ∧
      (Coremachine.runActs e ops).1.defContext = e.defContext by
    exact (h ops (Coremachine.openedOnEmpty m) rfl).2
  intro ops
  induction ops with
  | nil => intro e he; exact ⟨he, rfl⟩
  | cons hd tl ih =>
    intro e he
    unfold Coremachine.runActs
    cases ha : Coremachine.action e hd.1 hd.2 with
    | mk e' res =>
      have hpres := coremachine_action_keeps_defContext e hd.1 hd.2 he
      rw [ha] at hpres
      cases res with
      | ok r =>
        have := ih e' hpres.1
        exact ⟨this.1, by rw [this.2, hpres.2]⟩
      | error err => exact hpres

/-! ## C8: failures before the append -/

/-- C8 (counterexample): a transition `action` callback that mutates the
context in place and then throws refutes the claim: the `action()` call
rejects before any append, yet the engine's observable context has
changed (there is no rollback — the pre-call snapshot is only used for
the change event, never for restoration). -/
theorem throwing_callback_mutates_context :
    (Hyperstate.action eBoom "boom" ()).2 = Except.error ActionError.actionThrew ∧
    (Hyperstate.action eBoom "boom" ()).1.log.length = eBoom.log.length ∧
    (Hyperstate.action eBoom "boom" ()).1.context ≠ eBoom.context :=
  ⟨rfl, rfl, by decide⟩

/-- C8 (amended): for every `action()` call that fails at any step
before the Log append, the engine's observable `state` is unchanged, no
record is appended, and the cursor is unchanged; the observable
`context` is also unchanged when the failure is the `InvalidAction`
rejection of the resolve step, but a transition `action` callback that
throws may leave its in-place mutations behind in `context`. -/
theorem action_failure_keeps_state_and_log (e : Engine Ctx Payload)
    (n : String) (p : Payload) (err : ActionError)
    (h : (Hyperstate.action e n p).2 = Except.error err) :
    (Hyperstate.action e n p).1.state = e.state ∧
    (Hyperstate.action e n p).1.log = e.log ∧
    (Hyperstate.action e n p).1.currentIndex = e.currentIndex ∧
    (∀ name s, err = ActionError.invalidAction name s → (Hyperstate.action e n p).1 = e) := by
  cases hr : Hyperstate.resolve e.machine e.state n with
  | none => simp [Hyperstate.action, hr]
  | some t =>
    rcases hres : t.action e.context p with ⟨ctx', threw⟩
    cases threw with
    | true =>
      simp [Hyperstate.action, hr, hres] at h
      subst h
      simp [Hyperstate.action, hr, hres]
    | false =>
      exfalso
      simp [Hyperstate.action, hr, hres] at h

/-- Witness for C8's amended theorem: the throwing `boom` callback
rejects the call while state, log and cursor are preserved. -/
theorem action_failure_keeps_state_and_log_witness :
    (Hyperstate.action eBoom "boom" ()).2 = Except.error ActionError.actionThrew ∧
    (Hyperstate.action eBoom "boom" ()).1.state = eBoom.state ∧
    (Hyperstate.action eBoom "boom" ()).1.log = eBoom.log :=
  ⟨rfl, (action_failure_keeps_state_and_log eBoom "boom" () ActionError.actionThrew rfl).1,
    (action_failure_keeps_state_and_log eBoom "boom" () ActionError.actionThrew rfl).2.1⟩

/-! ## C2: replay equivalence on reopen -/

theorem action_ok_tipConsistent (m : MachineConfig Ctx Payload)
    (e e' : Engine Ctx Payload) (n : String) (p : Payload) (r : String × Ctx)
    (hc : tipConsistent m e) (h : Hyperstate.action e n p = (e', Except.ok r)) :
    tipConsistent m e' := by
  cases hr : Hyperstate.resolve e.machine e.state n with
  | none => simp [Hyperstate.action, hr] at h
  | some t =>
    rcases hres : t.action e.context p with ⟨ctx', threw⟩
    cases threw with
    | true => simp [Hyperstate.action, hr, hres] at h
    | false =>
      simp [Hyperstate.action, hr, hres] at h
      obtain ⟨h1, h2⟩ := h
      subst h1
      exact ⟨hc.1, Or.inr (logGet_append_tip e.log { state := t.target, context := ctx' })⟩

theorem runActs_tipConsistent (m : MachineConfig Ctx Payload) :
    ∀ (ops : List (String × Payload)) (e : Engine Ctx Payload),
      tipConsistent m e → (Hyperstate.runActs e ops).2 = true →
      tipConsistent m (Hyperstate.runActs e ops).1
  | [], _, hc, _ => hc
  | (n, p) :: tl, e, hc, hok => by
    unfold Hyperstate.runActs at hok ⊢
    cases ha : Hyperstate.action e n p with
    | mk e' res =>
      rw [ha] at hok
      cases res with
      | ok r =>
        exact runActs_tipConsistent m tl e'
          (action_ok_tipConsistent m e e' n p r hc ha) hok
      | error err => simp at hok

theorem openOn_restores (m : MachineConfig Ctx Payload)
    (log : List (LogRecord Ctx)) (r : LogRecord Ctx)
    (hget : logGet log ((log.length : Int) - 1) = some r)
    (hs : startEscapes m r.state = false) :
    (Hyperstate.openOn m log).state = r.state ∧
    (Hyperstate.openOn m log).context = r.context := by
  unfold Hyperstate.openOn
  rw [hget]
  unfold startEscapes at hs
  cases hstart : Hyperstate.resolve m r.state "start" with
  | none => simp [hstart]
  | some t =>
    rw [hstart] at hs
    simp only [bne_eq_false_iff_eq] at hs
    simp [hstart, hs]

/-- C2 (counterexample): the claim fails when the final state's node
defines a reserved `start` transition.  On `startMachine`, one
successful `go` action from an empty log leaves the live engine in state
`a` over a one-record log, but closing and reopening a fresh engine on
that log restores state `b`: `_open` applies the non-recorded `start`
pseudo-transition after loading the tip record. -/
theorem reopen_diverges_from_live_state :
    startRun.2 = true ∧
    startRun.1.state = "a" ∧
    (Hyperstate.openOn startMachine startRun.1.log).state = "b" ∧
    (Hyperstate.openOn startMachine startRun.1.log).state ≠ startRun.1.state :=
  ⟨rfl, rfl, rfl, by decide⟩

/-- C2 (amended): for every machine definition and every sequence of
successfully applied actions from an empty log, closing and reopening a
fresh engine bound to the resulting log restores the same
`{state, context}` as the live engine — provided the live engine's final
state node does not define a reserved `start` transition with a truthy
target (`_open` would then move the reopened engine off the persisted
state, see the counterexample). -/
theorem replay_restores_live_state (m : MachineConfig Ctx Payload)
    (ops : List (String × Payload))
    (hok : (Hyperstate.runActs (Hyperstate.openOn m []) ops).2 = true)
    (hs : startEscapes m (Hyperstate.runActs (Hyperstate.openOn m []) ops).1.state = false) :
    (Hyperstate.openOn m (Hyperstate.runActs (Hyperstate.openOn m []) ops).1.log).state =
      (Hyperstate.runActs (Hyperstate.openOn m []) ops).1.state ∧
    (Hyperstate.openOn m (Hyperstate.runActs (Hyperstate.openOn m []) ops).1.log).context =
      (Hyperstate.runActs (Hyperstate.openOn m []) ops).1.context := by
  have hinit : tipConsistent m (Hyperstate.openOn m []) :=
    ⟨rfl, Or.inl ⟨rfl, rfl, rfl⟩⟩
  have htip := runActs_tipConsistent m ops (Hyperstate.openOn m []) hinit hok
  rcases htip.2 with ⟨hnil, hst, hctx⟩ | hlast
  · rw [hnil, hst, hctx]
    exact ⟨rfl, rfl⟩
  · exact openOn_restores m (Hyperstate.runActs (Hyperstate.openOn m []) ops).1.log
      { state := (Hyperstate.runActs (Hyperstate.openOn m []) ops).1.state
        context := (Hyperstate.runActs (Hyperstate.openOn m []) ops).1.context }
      hlast hs

/-- Witness for C2's amended theorem: one successful `START(1)` on the
counter machine, whose final state `running` has no `start` transition;
reopening on the one-record log restores the same state. -/
theorem replay_restores_live_state_witness :
    (Hyperstate.runActs (Hyperstate.openOn counterMachine []) [("START", some 1)]).2 = true ∧
    startEscapes counterMachine
      (Hyperstate.runActs (Hyperstate.openOn counterMachine [])
        [("START", some 1)]).1.state = false ∧
    (Hyperstate.openOn counterMachine
        (Hyperstate.runActs (Hyperstate.openOn counterMachine [])
          [("START", some 1)]).1.log).state =
      (Hyperstate.runActs (Hyperstate.openOn counterMachine [])
        [("START", some 1)]).1.state :=
  ⟨rfl, rfl,
    (replay_restores_live_state counterMachine [("START", some 1)] rfl rfl).1⟩

/-! ## C3: the cursor invariant -/

theorem action_cursorInBounds (e : Engine Ctx Payload) (n : String) (p : Payload)
    (h : cursorInBounds e) : cursorInBounds (Hyperstate.action e n p).1 := by
  cases hr : Hyperstate.resolve e.machine e.state n with
  | none => simpa [Hyperstate.action, hr] using h
  | some t =>
    rcases hres : t.action e.context p with ⟨ctx', threw⟩
    cases threw with
    | true => simpa [Hyperstate.action, hr, hres, cursorInBounds] using h
    | false =>
      unfold cursorInBounds at h ⊢
      simp only [Hyperstate.action, hr, hres]
      cases hc : e.currentIndex with
      | none => simp [hc]
      | some i =>
        rw [hc] at h
        refine ⟨h.1, ?_⟩
        have h2 := h.2
        simp
        push_cast at h2
        omega

theorem forward_cursorInBounds (e : Engine Ctx Payload)
    (h : cursorInBounds e) : cursorInBounds (Hyperstate.forward e).1 := by
  have hgen : ∀ ni : Int,
      cursorInBounds
        ((if (e.log.length : Int) > ni ∧ ni < (e.log.length : Int) then
            match logGet e.log ni with
            | some r =>
              ({ e with
                  state := r.state
                  context := r.context
                  ctxAliased := false
                  currentIndex := some ni }, false)
            | none => (e, true)
          else (e, false)) : Engine Ctx Payload × Bool).1 := by
    intro ni
    split
    · cases hget : logGet e.log ni with
      | none => exact h
      | some r => exact logGet_bounds e.log ni r hget
    · exact h
  exact hgen _

theorem backward_cursorInBounds (e : Engine Ctx Payload)
    (h : cursorInBounds e) : cursorInBounds (Hyperstate.backward e).1 := by
  have hgen : ∀ ni : Int,
      cursorInBounds
        ((if (e.log.length : Int) > ni ∧ 0 ≤ ni then
            match logGet e.log ni with
            | some r =>
              ({ e with
                  state := r.state
                  context := r.context
                  ctxAliased := false
                  currentIndex := some ni }, false)
            | none => (e, true)
          else (e, false)) : Engine Ctx Payload × Bool).1 := by
    intro ni
    split
    · cases hget : logGet e.log ni with
      | none => exact h
      | some r => exact logGet_bounds e.log ni r hget
    · exact h
  exact hgen _

theorem run_cursorInBounds (e : Engine Ctx Payload)
    (ops : List (Hyperstate.EngineOp Payload)) (h : cursorInBounds e) :
    cursorInBounds (Hyperstate.run e ops) := by
  induction ops generalizing e with
  | nil => exact h
  | cons op tl ih =>
    refine ih (Hyperstate.step e op) ?_
    cases op with
    | act n p => exact action_cursorInBounds e n p h
    | fwd => exact forward_cursorInBounds e h
    | bwd => exact backward_cursorInBounds e h

/-- C3: starting from any engine tracking the live tip (cursor null, as
after construction and `_open`), after any sequence of `action`,
`forward` and `backward` calls — fulfilled or rejected — the history
cursor, whenever non-null, satisfies `0 <= cursor < log.length`; in
particular no `forward()` or `backward()` call ever assigns a cursor
outside those bounds (the guarded assignment only happens after a
successful `get`). -/
theorem cursor_always_in_bounds (e : Engine Ctx Payload)
    (ops : List (Hyperstate.EngineOp Payload)) (h : e.currentIndex = none) :
    cursorInBounds (Hyperstate.run e ops) := by
  refine run_cursorInBounds e ops ?_
  unfold cursorInBounds
  rw [h]
  trivial

/-- Witness for C3: a fresh engine on the counter machine, driven
through a successful action, two history moves and a failed action,
keeps its cursor in bounds. -/
theorem cursor_always_in_bounds_witness :
    (Hyperstate.openOn counterMachine []).currentIndex = none ∧
    cursorInBounds (Hyperstate.run (Hyperstate.openOn counterMachine [])
      [Hyperstate.EngineOp.act "START" (some 1),
       Hyperstate.EngineOp.act "INCREMENT" none,
       Hyperstate.EngineOp.bwd, Hyperstate.EngineOp.fwd,
       Hyperstate.EngineOp.act "STOP" none]) :=
  ⟨rfl, cursor_always_in_bounds (Hyperstate.openOn counterMachine [])
    [Hyperstate.EngineOp.act "START" (some 1),
     Hyperstate.EngineOp.act "INCREMENT" none,
     Hyperstate.EngineOp.bwd, Hyperstate.EngineOp.fwd,
     Hyperstate.EngineOp.act "STOP" none] rfl⟩

/-! ## C5: the first history step from the live tip -/

/-- C5 (counterexample): on an engine at the live tip (cursor null) of a
two-record log, the first `forward()` does not load the tip record at
index `L-1 = 1`: it loads the record at index `L-2 = 0` (state `s0`) and
sets the cursor to `0`, because the null-cursor case of `forward` maps
the cursor to `length - 2` directly, with no `+1` step applied. -/
theorem first_forward_skips_tip :
    (Hyperstate.forward tipEngine2).1.currentIndex ≠
      some ((tipEngine2.log.length : Int) - 1) ∧
    (Hyperstate.forward tipEngine2).1.state ≠ "s1" ∧
    (Hyperstate.forward tipEngine2).1.currentIndex = some 0 ∧
    (Hyperstate.forward tipEngine2).1.state = "s0" :=
  ⟨by decide, by decide, rfl, rfl⟩

/-- C5 (amended): for every engine at the live tip (cursor null) over a
log of length `L >= 2`, the first `backward()` call loads the record at
index `L-2` and sets the cursor to `L-2`, as claimed; the first
`forward()` call from the tip behaves identically — it also loads the
record at index `L-2` and sets the cursor to `L-2` (not the tip record
at `L-1`), since the null cursor is replaced by `length - 2` with no
increment applied. -/
theorem first_history_step_loads_second_to_last (e : Engine Ctx Payload)
    (r : LogRecord Ctx) (hc : e.currentIndex = none) (hl : 2 ≤ e.log.length)
    (hr : logGet e.log ((e.log.length : Int) - 2) = some r) :
    (Hyperstate.backward e).1.currentIndex = some ((e.log.length : Int) - 2) ∧
    (Hyperstate.backward e).1.state = r.state ∧
    (Hyperstate.backward e).1.context = r.context ∧
    (Hyperstate.forward e).1.currentIndex = some ((e.log.length : Int) - 2) ∧
    (Hyperstate.forward e).1.state = r.state ∧
    (Hyperstate.forward e).1.context = r.context := by
  unfold Hyperstate.forward Hyperstate.backward
  rw [hc]
  simp only
  rw [if_pos (by constructor <;> omega), if_pos (by constructor <;> omega), hr]
  exact ⟨rfl, rfl, rfl, rfl, rfl, rfl⟩

/-- Witness for C5's amended theorem at the concrete two-record engine:
both first moves land on index `0`, the record `{s0}`. -/
theorem first_history_step_loads_second_to_last_witness :
    tipEngine2.currentIndex = none ∧ 2 ≤ tipEngine2.log.length ∧
    (Hyperstate.backward tipEngine2).1.currentIndex =
      some ((tipEngine2.log.length : Int) - 2) ∧
    (Hyperstate.forward tipEngine2).1.state = "s0" :=
  ⟨rfl, by decide,
    (first_history_step_loads_second_to_last tipEngine2
      { state := "s0", context := () } rfl (by decide) rfl).1,
    (first_history_step_loads_second_to_last tipEngine2
      { state := "s0", context := () } rfl (by decide) rfl).2.2.2.2.1⟩

/-! ## C6: history inverse and bounds no-ops -/

/-- C6 (counterexample): the claim fails for an engine at the live tip
whose displayed `{state, context}` is not the tip record.  Reopening
`startMachine` on the 2-record log produced by two successful `go`
actions restores the tip record (state `a`) and then applies the
non-recorded `start` pseudo-transition, leaving the engine at the live
tip in state `b`; `backward()` then `forward()` lands on the tip record
and ends in state `a`, not the pre-pair state `b`. -/
theorem backward_forward_not_inverse_after_reopen :
    (Hyperstate.runActs (Hyperstate.openOn startMachine [])
      [("go", ()), ("go", ())]).2 = true ∧
    (Hyperstate.openOn startMachine
      (Hyperstate.runActs (Hyperstate.openOn startMachine [])
        [("go", ()), ("go", ())]).1.log).currentIndex = none ∧
    (Hyperstate.openOn startMachine
      (Hyperstate.runActs (Hyperstate.openOn startMachine [])
        [("go", ()), ("go", ())]).1.log).log.length = 2 ∧
    (Hyperstate.openOn startMachine
      (Hyperstate.runActs (Hyperstate.openOn startMachine [])
        [("go", ()), ("go", ())]).1.log).state = "b" ∧
    (Hyperstate.forward (Hyperstate.backward
      (Hyperstate.openOn startMachine
        (Hyperstate.runActs (Hyperstate.openOn startMachine [])
          [("go", ()), ("go", ())]).1.log)).1).1.state = "a" :=
  ⟨rfl, rfl, rfl, rfl, rfl⟩

/-- C6 (amended): for an engine at the live tip (cursor null, length at
least 2) whose displayed `{state, context}` equals the tip record — as
after any sequence of successful actions, though not necessarily after a
reopen that ran the `start` pseudo-transition — `backward()` then
`forward()` restores the same `{state, context}` (with the cursor left
at `L-1` rather than null); `forward()` with the cursor at the tip index
`L-1` and `backward()` with the cursor at index `0` are no-ops that
leave state, context and cursor unchanged and are not errors.  (From a
null cursor `forward()` is not a no-op: it loads index `L-2`; see the
C5 correction.) -/
theorem history_inverse_and_noops (e : Engine Ctx Payload) :
    (e.currentIndex = none → 2 ≤ e.log.length → displaysTip e →
      (Hyperstate.forward (Hyperstate.backward e).1).1.state = e.state ∧
      (Hyperstate.forward (Hyperstate.backward e).1).1.context = e.context) ∧
    (e.currentIndex = some ((e.log.length : Int) - 1) →
      Hyperstate.forward e = (e, false)) ∧
    (e.currentIndex = some 0 → Hyperstate.backward e = (e, false)) := by
  refine ⟨?_, ?_, ?_⟩
  · intro hc hl htip
    obtain ⟨r, hr⟩ := logGet_isSome e.log ((e.log.length : Int) - 2)
      (by omega) (by omega)
    have hb : (Hyperstate.backward e).1 =
        { e with
            state := r.state
            context := r.context
            ctxAliased := false
            currentIndex := some ((e.log.length : Int) - 2) } := by
      unfold Hyperstate.backward
      rw [hc]
      simp only
      rw [if_pos (by constructor <;> omega), hr]
    rw [hb]
    unfold Hyperstate.forward
    simp only
    rw [if_pos (by constructor <;> omega)]
    have : (e.log.length : Int) - 2 + 1 = (e.log.length : Int) - 1 := by omega
    rw [this]
    unfold displaysTip at htip
    rw [htip]
    exact ⟨rfl, rfl⟩
  · intro hc
    unfold Hyperstate.forward
    rw [hc]
    simp only
    rw [if_neg (by omega)]
  · intro hc
    unfold Hyperstate.backward
    rw [hc]
    simp only
    rw [if_neg (by omega)]

/-- Witness for C6's amended theorem: the two-record engine displaying
its tip record satisfies the round trip, and the cursor-at-tip and
cursor-at-zero engines are no-ops. -/
theorem history_inverse_and_noops_witness :
    ((Hyperstate.forward (Hyperstate.backward tipEngine2).1).1.state =
        tipEngine2.state ∧
      (Hyperstate.forward (Hyperstate.backward tipEngine2).1).1.context =
        tipEngine2.context) ∧
    Hyperstate.forward eAtTip = (eAtTip, false) ∧
    Hyperstate.backward eAtZero = (eAtZero, false) :=
  ⟨(history_inverse_and_noops tipEngine2).1 rfl (by decide) rfl,
    (history_inverse_and_noops eAtTip).2.1 (by decide),
    (history_inverse_and_noops eAtZero).2.2 rfl⟩

/-! ## C10: a successful action never touches the cursor -/

/-- C10: a successful `action()` call never modifies the history
cursor: if the cursor held the historical index `i` before the call, it
still holds `i` afterwards — not null and not the new tip — so a
subsequent `forward()` steps to `i + 1` relative to that stale index
rather than relative to the new tip. -/
theorem action_preserves_cursor (e : Engine Ctx Payload) (n : String)
    (p : Payload) (r : String × Ctx) (i : Int)
    (hok : (Hyperstate.action e n p).2 = Except.ok r)
    (hc : e.currentIndex = some i) (h0 : 0 ≤ i)
    (hlt : i + 1 < ((Hyperstate.action e n p).1.log.length : Int)) :
    (Hyperstate.action e n p).1.currentIndex = some i ∧
    (Hyperstate.forward (Hyperstate.action e n p).1).1.currentIndex =
      some (i + 1) := by
  cases hr : Hyperstate.resolve e.machine e.state n with
  | none => simp [Hyperstate.action, hr] at hok
  | some t =>
    rcases hres : t.action e.context p with ⟨ctx', threw⟩
    cases threw with
    | true => simp [Hyperstate.action, hr, hres] at hok
    | false =>
      have ha : (Hyperstate.action e n p).1 =
          { e with
              context := ctx'
              defContext := if e.ctxAliased then ctx' else e.defContext
              log := e.log ++ [{ state := t.target, context := ctx' }]
              state := t.target } := by
        simp [Hyperstate.action, hr, hres]
      rw [ha] at hlt ⊢
      refine ⟨hc, ?_⟩
      obtain ⟨r', hr'⟩ := logGet_isSome
        (e.log ++ [{ state := t.target, context := ctx' }]) (i + 1)
        (by omega) (by simpa using hlt)
      unfold Hyperstate.forward
      simp only [hc]
      rw [if_pos ⟨by simpa using hlt, by simpa using hlt⟩]
      rw [hr']

/-- Witness for C10: on the engine positioned at historical index 0, a
successful `INCREMENT` leaves the cursor at 0 and the next `forward()`
steps to index 1 of the now three-record log. -/
theorem action_preserves_cursor_witness :
    (Hyperstate.action eCursor0 "INCREMENT" none).2 =
      Except.ok ("running", { running := true, counter := some 2 }) ∧
    (Hyperstate.action eCursor0 "INCREMENT" none).1.currentIndex = some 0 ∧
    (Hyperstate.forward
      (Hyperstate.action eCursor0 "INCREMENT" none).1).1.currentIndex = some 1 :=
  ⟨rfl,
    (action_preserves_cursor eCursor0 "INCREMENT" none
      ("running", { running := true, counter := some 2 }) 0 rfl rfl
      (by decide) (by decide)).1,
    (action_preserves_cursor eCursor0 "INCREMENT" none
      ("running", { running := true, counter := some 2 }) 0 rfl rfl
      (by decide) (by decide)).2⟩
